import Mathlib

/-!
Verification of the day-workout synchronization model of a fitness-tracking
client (React Native + RTK Query).  The JavaScript fragments that the claims
depend on are shallowly embedded below: strings are lists of characters,
JavaScript numbers that hold integral values are modelled as `Int`/`Nat`, and
fractional values are modelled as exact rationals `Rat` (IEEE-754 rounding is
idealized away; all inputs in scope are short fixed-point literals).
-/

/-! ### JavaScript primitive models -/

/-- The character list of a string literal. -/
def chs (s : String) : List Char := s.data

/-- JavaScript `x || d` for a number `x` that may be `NaN` (modelled as `none`):
`NaN` and `0` are falsy, every other number is kept.  Integer version. -/
def jsOrZ (v : Option Int) (dflt : Int) : Int :=
  match v with
  | none => dflt
  | some x => if x = 0 then dflt else x

/-- JavaScript `x || d` for a possibly-`NaN` number, rational version. -/
def jsOrQ (v : Option Rat) (dflt : Rat) : Rat :=
  match v with
  | none => dflt
  | some x => if x = 0 then dflt else x

/-- Leading decimal digits of a character list: the digit values of the longest
digit prefix, together with the rest of the list. -/
def takeDigits : List Char → List Nat × List Char
  | [] => ([], [])
  | c :: cs =>
    if c.isDigit then
      let (ds, r) := takeDigits cs
      ((c.toNat - 48) :: ds, r)
    else ([], c :: cs)

/-- Value of a list of digit values read left to right. -/
def digitsVal (ds : List Nat) : Nat := ds.foldl (fun a d => 10 * a + d) 0

/-- Strip an optional sign, returning whether the value is negated. -/
def stripSign : List Char → Bool × List Char
  | '-' :: r => (true, r)
  | '+' :: r => (false, r)
  | r => (false, r)

/-- JavaScript `parseInt(s)` (radix 10), on the fragment of inputs the app can
produce: optional leading spaces, an optional sign, then the longest digit
prefix; `NaN` (no digits) is `none`.  Exotic forms (hex prefixes, exponents)
are outside the modelled fragment. -/
def jsParseInt (s : List Char) : Option Int :=
  let s1 := s.dropWhile (· = ' ')
  let (neg, s2) := stripSign s1
  let (ds, _) := takeDigits s2
  if ds = [] then none
  else some ((if neg then -1 else 1) * (digitsVal ds : Int))

/-- JavaScript `parseFloat(s)` on the fragment of inputs the app can produce:
optional leading spaces, optional sign, digits, an optional `.` and fraction
digits; `NaN` is `none`.  Exponent notation is outside the modelled fragment. -/
def jsParseFloat (s : List Char) : Option Rat :=
  let s1 := s.dropWhile (· = ' ')
  let (neg, s2) := stripSign s1
  let (ds, rest) := takeDigits s2
  let fs : List Nat :=
    match rest with
    | '.' :: r => (takeDigits r).1
    | _ => []
  if ds = [] ∧ fs = [] then none
  else
    let mag : Int := Int.ofNat (digitsVal ds * Nat.pow 10 fs.length + digitsVal fs)
    some (mkRat (if neg then -mag else mag) (Nat.pow 10 fs.length))

/-- Fuelled core of `natDigits`; the fuel only serves structural recursion and
any fuel above the number itself gives the same digits. -/
def natDigitsAux : Nat → Nat → List Char
  | 0, _ => []
  | fuel + 1, n =>
    if n < 10 then [Nat.digitChar n]
    else natDigitsAux fuel (n / 10) ++ [Nat.digitChar (n % 10)]

/-- Decimal digit characters of a natural number, most significant first;
this is JavaScript `String(n)` for a nonnegative integral number `n`. -/
def natDigits (n : Nat) : List Char := natDigitsAux (n + 1) n

/-- JavaScript `String(n).padStart(2, '0')` for a natural number. -/
def pad2 (n : Nat) : List Char :=
  if n < 10 then '0' :: natDigits n else natDigits n

/-- Zero-pad to four characters; used to write the `YYYY` component of the
claim's `YYYY-MM-DD` date strings. -/
def pad4 (n : Nat) : List Char :=
  List.replicate (4 - (natDigits n).length) '0' ++ natDigits n

/-- Accumulating core of JavaScript `Number(s)` on digit strings. -/
def jsNumberAux (acc : Nat) : List Char → Option Nat
  | [] => some acc
  | c :: cs => if c.isDigit then jsNumberAux (10 * acc + (c.toNat - 48)) cs else none

/-- JavaScript `Number(s)` on the fragment the app produces: the empty string
is `0`, a string of decimal digits is its value, anything else is `NaN`
(`none`).  Signs, spaces and fractions never occur in the split date
components this model is used on. -/
def jsNumber (s : List Char) : Option Nat :=
  if s = [] then some 0 else jsNumberAux 0 s

/-- JavaScript `s.split('-')`. -/
def splitOnDash : List Char → List (List Char)
  | [] => [[]]
  | c :: rest =>
    if c = '-' then [] :: splitOnDash rest
    else
      match splitOnDash rest with
      | [] => [[c]]
      | g :: gs => (c :: g) :: gs

/-- Rendering of a `Number(...)` result inside a template literal:
a number renders as its digits, `NaN` renders as the string `NaN`. -/
def jsRender (v : Option Nat) : List Char :=
  match v with
  | some n => natDigits n
  | none => chs "NaN"

example : jsParseInt (chs "34kg") = some 34 := by decide
example : jsParseInt (chs "-7") = some (-7) := by decide
example : jsParseInt (chs "abc") = none := by decide
example : jsParseInt (chs "") = none := by decide
example : jsParseFloat (chs "135.5") = some (271 / 2) := by
  simp [jsParseFloat, chs, takeDigits, digitsVal, stripSign]
  rw [Rat.mkRat_eq_div]; norm_num
example : jsParseFloat (chs "") = none := by decide
example : jsNumber (chs "03") = some 3 := by decide
example : splitOnDash (chs "2025-06-01") = [chs "2025", chs "06", chs "01"] := by decide
example : natDigits 2025 = chs "2025" := by decide


/-! ### Digit-string lemmas -/

theorem natDigitsAux_fuel (n : Nat) :
    ∀ f1 f2, n < f1 → n < f2 → natDigitsAux f1 n = natDigitsAux f2 n := by
  induction n using Nat.strong_induction_on with
  | _ n ih =>
    intro f1 f2 h1 h2
    obtain ⟨fa, rfl⟩ : ∃ fa, f1 = fa + 1 := ⟨f1 - 1, by omega⟩
    obtain ⟨fb, rfl⟩ : ∃ fb, f2 = fb + 1 := ⟨f2 - 1, by omega⟩
    by_cases h10 : n < 10
    · simp [natDigitsAux, h10]
    · simp only [natDigitsAux, if_neg h10]
      rw [ih (n / 10) (by omega) fa fb (by omega) (by omega)]

/-- Unfolding rule of `natDigits` as plain recursion on the value. -/
theorem natDigits_rec (n : Nat) :
    natDigits n = if n < 10 then [Nat.digitChar n]
      else natDigits (n / 10) ++ [Nat.digitChar (n % 10)] := by
  by_cases h10 : n < 10
  · simp [natDigits, natDigitsAux, h10]
  · have h1 : natDigitsAux (n + 1) n
        = natDigitsAux n (n / 10) ++ [Nat.digitChar (n % 10)] := by
      simp [natDigitsAux, h10]
    rw [if_neg h10]
    show natDigitsAux (n + 1) n = natDigits (n / 10) ++ [Nat.digitChar (n % 10)]
    rw [h1, natDigitsAux_fuel (n / 10) n (n / 10 + 1) (by omega) (by omega)]
    rfl

theorem digitChar_isDigit (k : Nat) (h : k < 10) : (Nat.digitChar k).isDigit = true := by
  interval_cases k <;> decide

theorem digitChar_val (k : Nat) (h : k < 10) : (Nat.digitChar k).toNat - 48 = k := by
  interval_cases k <;> decide

theorem natDigits_all_digits (n : Nat) : ∀ c ∈ natDigits n, c.isDigit = true := by
  induction n using Nat.strong_induction_on with
  | _ n ih =>
    rw [natDigits_rec]
    by_cases h10 : n < 10
    · simp only [if_pos h10, List.mem_singleton]
      rintro c rfl
      exact digitChar_isDigit n h10
    · simp only [if_neg h10, List.mem_append, List.mem_singleton]
      rintro c (hc | rfl)
      · exact ih (n / 10) (by omega) c hc
      · exact digitChar_isDigit (n % 10) (by omega)

theorem natDigits_ne_nil (n : Nat) : natDigits n ≠ [] := by
  rw [natDigits_rec]
  by_cases h10 : n < 10 <;> simp [h10]

theorem jsNumberAux_append (xs ys : List Char) (acc : Nat) :
    jsNumberAux acc (xs ++ ys)
      = (jsNumberAux acc xs).bind (fun a => jsNumberAux a ys) := by
  induction xs generalizing acc with
  | nil => simp [jsNumberAux]
  | cons c cs ih =>
    by_cases hc : c.isDigit <;> simp [jsNumberAux, hc, ih]

theorem jsNumberAux_natDigits (n : Nat) : jsNumberAux 0 (natDigits n) = some n := by
  induction n using Nat.strong_induction_on with
  | _ n ih =>
    rw [natDigits_rec]
    by_cases h10 : n < 10
    · rw [if_pos h10]
      simp only [jsNumberAux, digitChar_isDigit n h10, if_pos]
      rw [digitChar_val n h10]
      norm_num
    · rw [if_neg h10, jsNumberAux_append, ih (n / 10) (by omega)]
      have hd : (Nat.digitChar (n % 10)).isDigit = true := digitChar_isDigit _ (by omega)
      have hv : (Nat.digitChar (n % 10)).toNat - 48 = n % 10 := digitChar_val _ (by omega)
      simp only [Option.some_bind, jsNumberAux, hd, if_pos, hv]
      congr 1
      omega

theorem jsNumber_natDigits (n : Nat) : jsNumber (natDigits n) = some n := by
  rw [jsNumber, if_neg (natDigits_ne_nil n)]
  exact jsNumberAux_natDigits n

theorem natDigits_length_one (n : Nat) (h : n < 10) : (natDigits n).length = 1 := by
  rw [natDigits_rec, if_pos h]
  rfl

theorem natDigits_length_two (n : Nat) (h1 : 10 ≤ n) (h2 : n < 100) :
    (natDigits n).length = 2 := by
  rw [natDigits_rec, if_neg (by omega)]
  simp [natDigits_length_one (n / 10) (by omega)]

theorem pad2_length (n : Nat) (h : n < 100) : (pad2 n).length = 2 := by
  by_cases h10 : n < 10
  · simp [pad2, h10, natDigits_length_one n h10]
  · simp [pad2, h10, natDigits_length_two n (by omega) h]

theorem jsNumberAux_zeros (k : Nat) (cs : List Char) :
    jsNumberAux 0 (List.replicate k '0' ++ cs) = jsNumberAux 0 cs := by
  induction k with
  | zero => rfl
  | succ k ih =>
    simp only [List.replicate_succ, List.cons_append, jsNumberAux]
    norm_num
    exact ih

theorem jsNumber_pad2 (n : Nat) : jsNumber (pad2 n) = some n := by
  by_cases h10 : n < 10
  · rw [pad2, if_pos h10, jsNumber, if_neg (by simp)]
    have hz := jsNumberAux_zeros 1 (natDigits n)
    simp only [List.replicate_one, List.singleton_append] at hz
    rw [hz]
    exact jsNumberAux_natDigits n
  · rw [pad2, if_neg h10]
    exact jsNumber_natDigits n

theorem pad2_all_digits (n : Nat) : ∀ c ∈ pad2 n, c.isDigit = true := by
  intro c hc
  rw [pad2] at hc
  by_cases h10 : n < 10
  · rw [if_pos h10] at hc
    rcases List.mem_cons.mp hc with rfl | hc'
    · decide
    · exact natDigits_all_digits n c hc'
  · rw [if_neg h10] at hc
    exact natDigits_all_digits n c hc

theorem pad4_all_digits (n : Nat) : ∀ c ∈ pad4 n, c.isDigit = true := by
  intro c hc
  rw [pad4] at hc
  rcases List.mem_append.mp hc with hc' | hc'
  · rw [List.eq_of_mem_replicate hc']
    decide
  · exact natDigits_all_digits n c hc'

theorem jsNumber_pad4 (n : Nat) : jsNumber (pad4 n) = some n := by
  have hne : pad4 n ≠ [] := by
    rw [pad4]
    simp [natDigits_ne_nil n]
  rw [jsNumber, if_neg hne, pad4, jsNumberAux_zeros]
  exact jsNumberAux_natDigits n

/-! ### Splitting lemmas -/

theorem splitOnDash_no_dash (xs : List Char) (h : ∀ c ∈ xs, c ≠ '-') :
    splitOnDash xs = [xs] := by
  induction xs with
  | nil => rfl
  | cons c cs ih =>
    have hc : c ≠ '-' := h c (List.mem_cons_self c cs)
    have hrest := ih (fun x hx => h x (List.mem_cons_of_mem c hx))
    simp only [splitOnDash, if_neg hc, hrest]

theorem splitOnDash_append (xs ys : List Char) (h : ∀ c ∈ xs, c ≠ '-') :
    splitOnDash (xs ++ '-' :: ys) = xs :: splitOnDash ys := by
  induction xs with
  | nil => simp [splitOnDash]
  | cons c cs ih =>
    have hc : c ≠ '-' := h c (List.mem_cons_self c cs)
    have hrest := ih (fun x hx => h x (List.mem_cons_of_mem c hx))
    simp only [List.cons_append, splitOnDash, if_neg hc, List.append_eq, hrest]

theorem isDigit_ne_dash (c : Char) (h : c.isDigit = true) : c ≠ '-' := by
  intro hc
  subst hc
  simp at h

/-! ### JavaScript `Date` model

A `Date` value is modelled as its timestamp in minutes since the proleptic
Gregorian instant 0000-03-01T00:00 UTC (an `Int`).  A timezone is modelled as
a fixed offset `o` in minutes east of UTC (daylight-saving transitions are
idealized away; the constant-offset model is exactly what the UTC-shift bug
class the spec discusses is about).  Civil-date conversions follow the
arithmetic of ECMAScript `MakeDay` / `YearFromTime` / `MonthFromTime` /
`DateFromTime`, including the Date-constructor rule mapping year arguments
0 to 99 to 1900 + year.  Timestamps are unbounded (the ECMAScript range
saturation to Invalid Date far outside the app's years is not modelled). -/

/-- Proleptic Gregorian leap-year predicate. -/
def isLeap (y : Nat) : Prop := y % 4 = 0 ∧ (y % 100 ≠ 0 ∨ y % 400 = 0)

instance (y : Nat) : Decidable (isLeap y) := by unfold isLeap; infer_instance

/-- True Gregorian number of days in month `m` (1-12) of year `y`. -/
def gregDaysInMonth (y m : Nat) : Nat :=
  if m = 2 then (if isLeap y then 29 else 28)
  else if m = 4 ∨ m = 6 ∨ m = 9 ∨ m = 11 then 30 else 31

/-- Day number of the civil date `(y, m, d)` (month 1-12, day from 1),
counted from 0000-03-01 = day 0; requires `1 ≤ y` when `m ≤ 2`. -/
def daysFromCivil (y m d : Nat) : Nat :=
  let yy := if m ≤ 2 then y - 1 else y
  let mp := if 3 ≤ m then m - 3 else m + 9
  let doy := (153 * mp + 2) / 5 + (d - 1)
  365 * yy + yy / 4 - yy / 100 + yy / 400 + doy

/-- Civil date `(y, m, d)` of a day number counted from 0000-03-01. -/
def civilFromDays (n : Nat) : Nat × Nat × Nat :=
  let era := n / 146097
  let doe := n % 146097
  let yoe := (doe - doe / 1460 + doe / 36524 - doe / 146096) / 365
  let doy := doe - (365 * yoe + yoe / 4 - yoe / 100)
  let mp := (5 * doy + 2) / 153
  let d := doy - (153 * mp + 2) / 5 + 1
  let m := if mp < 10 then mp + 3 else mp - 9
  let y := 400 * era + yoe + (if m ≤ 2 then 1 else 0)
  (y, m, d)

/-- ECMAScript `MakeFullYear`: a year argument between 0 and 99 denotes
1900 + year. -/
def jsFullYear (y : Nat) : Nat := if y ≤ 99 then 1900 + y else y

/-- ECMAScript `MakeDay` for a `new Date(y, m0, d)` construction: the 0-based
month argument `m0` is normalized into the year (12 overflows to January of
the next year, as in the calendar's day-0 trick), the day argument is an
arbitrary integer offset from day 1 of that month. -/
def jsMakeDay (y : Nat) (m0 : Int) (d : Int) : Int :=
  let yy : Int := (jsFullYear y : Int) + m0.fdiv 12
  let mn : Nat := (m0.emod 12).toNat
  (daysFromCivil yy.toNat (mn + 1) 1 : Int) + d - 1

/-- Timestamp (minutes since epoch, UTC) of `new Date(y, m0, d)` evaluated in
a timezone with constant offset `o` minutes east of UTC: the wall-clock
midnight of that civil date. -/
def jsNewDateLocal (o : Int) (y : Nat) (m0 : Int) (d : Int) : Int :=
  jsMakeDay y m0 d * 1440 - o

/-- Local civil date of a timestamp: `(getFullYear, getMonth + 1, getDate)`
of a `Date` holding `t`, observed in offset `o`. -/
def jsLocalYMD (o : Int) (t : Int) : Nat × Nat × Nat :=
  civilFromDays ((t + o).fdiv 1440).toNat

/-- Local day-of-week (`getDay`, Sunday = 0) of a timestamp in offset `o`;
day 0 of the epoch, 0000-03-01, was a Wednesday. -/
def jsGetDay (o : Int) (t : Int) : Nat :=
  ((((t + o).fdiv 1440) + 3).emod 7).toNat

/-- Accessor `getDate` (local day of month). -/
def jsGetDate (o : Int) (t : Int) : Nat := (jsLocalYMD o t).2.2

/-- Source `parseLocalDate` (analytics screen): split a `YYYY-MM-DD` string on
dashes, convert the parts with `Number`, and build a local `Date` from the
components; `null` for the empty string.  The JavaScript original leaves
`Number` failures as an Invalid Date, which the claims never reach; the model
returns `none` for them as well. -/
def parseLocalDate (o : Int) (s : List Char) : Option Int :=
  if s = [] then none
  else
    match (splitOnDash s).map jsNumber with
    | some y :: some m :: some d :: _ => some (jsNewDateLocal o y ((m : Int) - 1) (d : Int))
    | _ => none

/-- A claim-side `YYYY-MM-DD` date string (4-digit zero-padded year,
2-digit zero-padded month and day). -/
def dateStr4 (y m d : Nat) : List Char :=
  pad4 y ++ '-' :: pad2 m ++ '-' :: pad2 d

/-- The date strings the calendar screen builds for its day cells:
the year is written as-is, month and day are padded to two digits. -/
def dateStrCal (y m d : Nat) : List Char :=
  natDigits y ++ '-' :: pad2 m ++ '-' :: pad2 d

example : daysFromCivil 1970 1 1 = 719468 := by decide
example : civilFromDays 719468 = (1970, 1, 1) := by decide
example : civilFromDays (daysFromCivil 2025 6 1) = (2025, 6, 1) := by decide
example : jsGetDay 0 (jsNewDateLocal 0 1970 0 1) = 4 := by decide
example : jsLocalYMD (-300) (jsNewDateLocal (-300) 2025 0 31) = (2025, 1, 31) := by decide
example : jsLocalYMD 0 (jsNewDateLocal 0 99 0 15) = (1999, 1, 15) := by decide
example : dateStrCal 2025 6 1 = chs "2025-06-01" := by decide

/-! ### Gregorian round trip underlying the `Date` accessors -/

def mpLen (mp : Nat) : Nat :=
  if mp = 1 ∨ mp = 3 ∨ mp = 6 ∨ mp = 8 then 30
  else if mp = 11 then 29 else 31

theorem doy_month_inv (mp d : Nat) (hmp : mp ≤ 11) (hd1 : 1 ≤ d) (hd2 : d ≤ mpLen mp) :
    (5 * ((153 * mp + 2) / 5 + (d - 1)) + 2) / 153 = mp ∧
    (153 * mp + 2) / 5 + (d - 1) - (153 * mp + 2) / 5 + 1 = d ∧
    (153 * mp + 2) / 5 + (d - 1) ≤ 365 := by
  interval_cases mp <;> (norm_num [mpLen] at hd2; omega)

theorem yoe_inv (r doy : Nat) (hr : r ≤ 399)
    (hdoy : doy ≤ 364 ∨ (doy = 365 ∧ ((r + 1) % 4 = 0 ∧ ((r + 1) % 100 ≠ 0 ∨ r = 399)))) :
    365 * r + r / 4 - r / 100 + doy ≤ 146096 ∧
    ((365 * r + r / 4 - r / 100 + doy) - (365 * r + r / 4 - r / 100 + doy) / 1460
      + (365 * r + r / 4 - r / 100 + doy) / 36524
      - (365 * r + r / 4 - r / 100 + doy) / 146096) / 365 = r ∧
    365 * r + r / 4 - r / 100 ≤ 365 * r + r / 4 - r / 100 + doy := by
  set doe := 365 * r + r / 4 - r / 100 + doy with hdoe
  have f1 : r / 4 ≤ doe / 1460 ∧ doe / 1460 ≤ r / 4 + 1 := by omega
  have f2 : r / 100 ≤ doe / 36524 ∧ doe / 36524 ≤ r / 100 + 1 := by omega
  have f3 : doe ≤ 146096 ∧ (doe ≤ 146095 → doe / 146096 = 0) := by omega
  have f4 : doy = 0 → doe / 1460 = r / 4 := by omega
  have f5 : doy ≤ 364 → doe / 36524 = r / 100 := by omega
  have f6 : doy = 365 → (r + 1) % 4 = 0 → (r + 1) % 100 ≠ 0 → r ≠ 399 →
      doe / 1460 = r / 4 + 1 ∧ doe / 36524 = r / 100 := by omega
  have f7 : doy = 365 → r = 399 → doe = 146096 := by omega
  have f8 : doy ≤ 364 → doe ≤ 146095 := by omega
  omega

/-- Splitting a March-based year into its 400-year era and year-of-era. -/
theorem era_split (q r doy : Nat) (hr : r ≤ 399) :
    365 * (400 * q + r) + (400 * q + r) / 4 - (400 * q + r) / 100 + (400 * q + r) / 400 + doy
      = 146097 * q + (365 * r + r / 4 - r / 100 + doy) := by omega

/-- Division and remainder of an era-decomposed day number. -/
theorem era_div (q doe : Nat) (h : doe ≤ 146096) :
    (146097 * q + doe) / 146097 = q ∧ (146097 * q + doe) % 146097 = doe := by omega

set_option maxHeartbeats 1000000 in
/-- Core of the round trip, on the March-based year `yy` and month slot
`mp` (0 = March, ..., 11 = February). -/
theorem hinnant_core (yy mp d : Nat) (hmp : mp ≤ 11) (hd1 : 1 ≤ d) (hd2 : d ≤ mpLen mp)
    (hleap : mp = 11 → d = 29 →
      ((yy + 1) % 4 = 0 ∧ ((yy + 1) % 100 ≠ 0 ∨ (yy + 1) % 400 = 0))) :
    civilFromDays (365 * yy + yy / 4 - yy / 100 + yy / 400 + ((153 * mp + 2) / 5 + (d - 1)))
      = (yy + (if 10 ≤ mp then 1 else 0), (if mp < 10 then mp + 3 else mp - 9), d) := by
  obtain ⟨q, r, hqr, hrlt⟩ : ∃ q r, yy = 400 * q + r ∧ r ≤ 399 :=
    ⟨yy / 400, yy % 400, by omega, by omega⟩
  set doy := (153 * mp + 2) / 5 + (d - 1) with hdoydef
  have hmonth := doy_month_inv mp d hmp hd1 hd2
  have hdoy : doy ≤ 364 ∨ (doy = 365 ∧ ((r + 1) % 4 = 0 ∧ ((r + 1) % 100 ≠ 0 ∨ r = 399))) := by
    rcases Nat.lt_or_ge mp 11 with hmplt | hmpge
    · left
      interval_cases mp <;> (norm_num [mpLen] at hd2; omega)
    · have hmp11 : mp = 11 := by omega
      subst hmp11
      norm_num [mpLen] at hd2
      rcases Nat.lt_or_ge d 29 with hdlt | hdge
      · left; omega
      · have hl := hleap rfl (by omega)
        right
        refine ⟨by omega, by omega, by omega⟩
  have hyear := yoe_inv r doy hrlt hdoy
  have hsplit : 365 * yy + yy / 4 - yy / 100 + yy / 400 + doy
      = 146097 * q + (365 * r + r / 4 - r / 100 + doy) := by
    rw [hqr]
    exact era_split q r doy hrlt
  rw [hsplit]
  simp only [civilFromDays]
  have hdiv := era_div q (365 * r + r / 4 - r / 100 + doy) hyear.1
  rw [hdiv.1, hdiv.2, hyear.2.1]
  have hdoyrec : 365 * r + r / 4 - r / 100 + doy - (365 * r + r / 4 - r / 100) = doy := by
    omega
  rw [hdoyrec, hmonth.1, hmonth.2.1]
  have hifs : (if (if mp < 10 then mp + 3 else mp - 9) ≤ 2 then 1 else 0)
      = (if 10 ≤ mp then 1 else 0) := by
    split_ifs <;> omega
  rw [hifs, hqr]

set_option maxHeartbeats 1000000 in
/-- Round trip at the heart of the JS `Date` model: converting a valid civil
date to its day number and back is the identity. -/
theorem civilFromDays_daysFromCivil (y m d : Nat) (hy : 1 ≤ y)
    (hm1 : 1 ≤ m) (hm2 : m ≤ 12) (hd1 : 1 ≤ d) (hd2 : d ≤ gregDaysInMonth y m) :
    civilFromDays (daysFromCivil y m d) = (y, m, d) := by
  by_cases hm2' : m ≤ 2
  · have hrw : daysFromCivil y m d
        = 365 * (y - 1) + (y - 1) / 4 - (y - 1) / 100 + (y - 1) / 400
          + ((153 * (m + 9) + 2) / 5 + (d - 1)) := by
      simp only [daysFromCivil]
      rw [if_pos hm2', if_neg (by omega : ¬ 3 ≤ m)]
    have hbound : d ≤ mpLen (m + 9) := by
      rcases (by omega : m = 1 ∨ m = 2) with rfl | rfl
      · norm_num [gregDaysInMonth] at hd2
        norm_num [mpLen]
        omega
      · norm_num [mpLen]
        by_cases hL : isLeap y
        · have : gregDaysInMonth y 2 = 29 := by simp [gregDaysInMonth, hL]
          omega
        · have : gregDaysInMonth y 2 = 28 := by simp [gregDaysInMonth, hL]
          omega
    have hleap : m + 9 = 11 → d = 29 →
        ((y - 1 + 1) % 4 = 0 ∧ ((y - 1 + 1) % 100 ≠ 0 ∨ (y - 1 + 1) % 400 = 0)) := by
      intro hm11 hd29
      have hmeq : m = 2 := by omega
      subst hmeq
      by_cases hL : isLeap y
      · unfold isLeap at hL
        omega
      · have : gregDaysInMonth y 2 = 28 := by simp [gregDaysInMonth, hL]
        omega
    have hcore := hinnant_core (y - 1) (m + 9) d (by omega) hd1 hbound hleap
    rw [hrw, hcore, if_pos (by omega : 10 ≤ m + 9), if_neg (by omega : ¬ m + 9 < 10)]
    simp only [Prod.mk.injEq, and_true]
    omega
  · have hrw : daysFromCivil y m d
        = 365 * y + y / 4 - y / 100 + y / 400 + ((153 * (m - 3) + 2) / 5 + (d - 1)) := by
      simp only [daysFromCivil]
      rw [if_neg hm2', if_pos (by omega : 3 ≤ m)]
    have hbound : d ≤ mpLen (m - 3) := by
      have h12 : 3 ≤ m ∧ m ≤ 12 := by omega
      interval_cases m <;> (norm_num [gregDaysInMonth] at hd2; norm_num [mpLen]; omega)
    have hleap : m - 3 = 11 → d = 29 →
        ((y + 1) % 4 = 0 ∧ ((y + 1) % 100 ≠ 0 ∨ (y + 1) % 400 = 0)) := by
      intro hm11
      omega
    have hcore := hinnant_core y (m - 3) d (by omega) hd1 hbound hleap
    rw [hrw, hcore, if_neg (by omega : ¬ 10 ≤ m - 3), if_pos (by omega : m - 3 < 10)]
    simp only [Prod.mk.injEq, and_true]
    omega

/-! ### Day screen: form entries and the save payload (`saveWorkout`) -/

/-- A strength entry as held in the day screen's local state: all numeric
fields are the raw strings of the form inputs. -/
structure FormStrength where
  id : Option Nat := none
  exercise_id : Option Nat
  exercise_name : List Char := []
  muscle_group : List Char := []
  sets : List Char
  reps : List Char
  weight : List Char

/-- A cardio entry as held in the day screen's local state. -/
structure FormCardio where
  id : Option Nat := none
  cardio_type_id : Option Nat
  cardio_type_name : List Char := []
  minutes : List Char
  distance : List Char := []

/-- A strength entry of the save payload.  The source serializes `weight` with
`String(...)` for transport; the model keeps the numeric value itself. -/
structure PayloadStrength where
  exercise_id : Option Nat
  sets : Int
  reps : Int
  weight : Rat
deriving DecidableEq

/-- A cardio entry of the save payload. -/
structure PayloadCardio where
  cardio_type_id : Option Nat
  minutes : Int
  distance : Option Rat
deriving DecidableEq

/-- The body of the day-save POST. -/
structure SavePayload where
  date : List Char
  notes : List Char
  entries : List PayloadStrength
  cardio_entries : List PayloadCardio

/-- Field coercions of one strength entry in `saveWorkout`:
`sets: Math.max(1, parseInt(e.sets) || 1)`, same for reps, and
`weight: String(parseFloat(e.weight) || 0)`. -/
def mkStrengthPayload (e : FormStrength) : PayloadStrength :=
  { exercise_id := e.exercise_id
    sets := max 1 (jsOrZ (jsParseInt e.sets) 1)
    reps := max 1 (jsOrZ (jsParseInt e.reps) 1)
    weight := jsOrQ (jsParseFloat e.weight) 0 }

/-- Field coercions of one cardio entry in `saveWorkout`; the `distance`
ternary tests the raw string for truthiness (empty string is falsy). -/
def mkCardioPayload (c : FormCardio) : PayloadCardio :=
  { cardio_type_id := c.cardio_type_id
    minutes := max 1 (jsOrZ (jsParseInt c.minutes) 1)
    distance := if c.distance = [] then none
      else some (jsOrQ (jsParseFloat c.distance) 0) }

/-- The payload built by `saveWorkout`: entries whose catalog reference is
null (`!= null` is false) are filtered out, the rest are coerced. -/
def saveWorkoutPayload (date notes : List Char) (newEntries : List FormStrength)
    (newCardioEntries : List FormCardio) : SavePayload :=
  let validEntries := newEntries.filter (fun e => e.exercise_id.isSome)
  let validCardioEntries := newCardioEntries.filter (fun c => c.cardio_type_id.isSome)
  { date := date
    notes := notes
    entries := validEntries.map mkStrengthPayload
    cardio_entries := validCardioEntries.map mkCardioPayload }

/-! ### Day screen: displayed local totals -/

/-- Source `localTotalWeight`: reduce over entries of
`(parseInt(sets) || 0) * (parseInt(reps) || 0) * (parseFloat(weight) || 0)`. -/
def localTotalWeight (entries : List FormStrength) : Rat :=
  entries.foldl (fun sum entry =>
    sum + ((jsOrZ (jsParseInt entry.sets) 0 : Int) : Rat)
      * ((jsOrZ (jsParseInt entry.reps) 0 : Int) : Rat)
      * jsOrQ (jsParseFloat entry.weight) 0) 0

/-- Source `localTotalReps`: reduce over entries of sets times reps. -/
def localTotalReps (entries : List FormStrength) : Int :=
  entries.foldl (fun sum entry =>
    sum + jsOrZ (jsParseInt entry.sets) 0 * jsOrZ (jsParseInt entry.reps) 0) 0

/-- Source `localTotalCardioMinutes`: reduce over cardio entries of their minutes. -/
def localTotalCardioMinutes (cardioEntries : List FormCardio) : Int :=
  cardioEntries.foldl (fun sum entry =>
    sum + jsOrZ (jsParseInt entry.minutes) 0) 0

/-! ### Day screen: delete handlers -/

/-- Accumulating core of `list.filter((_, i) => i !== index)`. -/
def jsFilterIdxNeGo (idx : Nat) (cur : Nat) : List α → List α
  | [] => []
  | a :: as =>
    if cur ≠ idx then a :: jsFilterIdxNeGo idx (cur + 1) as
    else jsFilterIdxNeGo idx (cur + 1) as

/-- JavaScript `list.filter((_, i) => i !== index)`. -/
def jsFilterIdxNe (l : List α) (idx : Nat) : List α := jsFilterIdxNeGo idx 0 l

/-- The entry lists of the day screen's local state. -/
structure DayState where
  entries : List FormStrength
  cardioEntries : List FormCardio

/-- Source `handleDeleteStrength`: on confirm, filter out the index, set the list
optimistically, persist, and restore the captured previous list when the
save fails. -/
def handleDeleteStrength (st : DayState) (index : Nat)
    (confirmed saveSucceeds : Bool) : DayState :=
  if !confirmed then st
  else
    let newEntries := jsFilterIdxNe st.entries index
    let afterOptimistic := { st with entries := newEntries }
    if saveSucceeds then afterOptimistic
    else { afterOptimistic with entries := st.entries }

/-- Source `handleDeleteCardio`, symmetric to `handleDeleteStrength`. -/
def handleDeleteCardio (st : DayState) (index : Nat)
    (confirmed saveSucceeds : Bool) : DayState :=
  if !confirmed then st
  else
    let newCardioEntries := jsFilterIdxNe st.cardioEntries index
    let afterOptimistic := { st with cardioEntries := newCardioEntries }
    if saveSucceeds then afterOptimistic
    else { afterOptimistic with cardioEntries := st.cardioEntries }

/-! ### RTK Query cache-tag declarations of the store -/

/-- The five tag types declared in `tagTypes`. -/
inductive TagType
  | Workout
  | MonthWorkouts
  | Analytics
  | Exercise
  | CardioType
deriving DecidableEq

/-- A cache tag: a type, optionally narrowed by a string id. -/
structure CacheTag where
  ty : TagType
  id : Option (List Char)
deriving DecidableEq

/-- The `providesTags` of `getMonthWorkouts`: the month pair's own id plus the
general Workout tag. -/
def getMonthWorkoutsProvides (year month : Nat) : List CacheTag :=
  [⟨.MonthWorkouts, some (natDigits year ++ '-' :: natDigits month)⟩,
   ⟨.Workout, none⟩]

/-- The `providesTags` of `getDayWorkout`: the exact date. -/
def getDayWorkoutProvides (date : List Char) : List CacheTag :=
  [⟨.Workout, some date⟩]

/-- The `providesTags` of `getAnalyticsSummary`. -/
def getAnalyticsSummaryProvides : List CacheTag :=
  [⟨.Analytics, none⟩]

/-- The `providesTags` of `getExerciseHistory`: an Analytics-typed tag whose id is
derived from the exercise id. -/
def getExerciseHistoryProvides (exerciseId : Nat) : List CacheTag :=
  [⟨.Analytics, some (chs "exercise-" ++ natDigits exerciseId)⟩]

/-- The `invalidatesTags` of `saveDayWorkout`: destructure
`date.split('-').map(Number)` into year and month and emit the day tag, the
month tag, and the general Analytics tag. -/
def saveDayWorkoutInvalidates (date : List Char) : List CacheTag :=
  let parts := (splitOnDash date).map jsNumber
  [⟨.Workout, some date⟩,
   ⟨.MonthWorkouts, some (jsRender (parts.getD 0 none) ++ '-' :: jsRender (parts.getD 1 none))⟩,
   ⟨.Analytics, none⟩]

/-- Tag matching of RTK Query's `selectInvalidatedBy`: an invalidation tag
without an id invalidates every cache entry providing any tag of that type;
one with an id invalidates exactly the entries providing that type-id pair. -/
def tagMatches (inv prov : CacheTag) : Prop :=
  inv.ty = prov.ty ∧ (inv.id = none ∨ inv.id = prov.id)

instance (inv prov : CacheTag) : Decidable (tagMatches inv prov) := by
  unfold tagMatches
  infer_instance

/-- A cache entry with provided tags `provides` is refetched after a mutation
emitting `invalidates` when some invalidation tag matches some provided tag. -/
def invalidatedBy (provides invalidates : List CacheTag) : Prop :=
  ∃ i ∈ invalidates, ∃ p ∈ provides, tagMatches i p

instance (provides invalidates : List CacheTag) :
    Decidable (invalidatedBy provides invalidates) := by
  unfold invalidatedBy
  infer_instance

/-! ### Calendar screen -/

/-- Source `VALID_YEARS` of the calendar screen. -/
def VALID_YEARS : List Nat := [2025, 2026]

/-- A cell of the calendar grid. -/
inductive CalCell
  | blank (idx : Nat)
  | day (day : Nat) (dateStr : List Char) (hasWorkout : Bool)
deriving DecidableEq

/-- Whether a cell is a day cell. -/
def CalCell.isDay : CalCell → Bool
  | .day _ _ _ => true
  | .blank _ => false

/-- The `daysInMonth` computation of `calendarCells`:
`new Date(year, month, 0).getDate()` with the 1-based selected month passed
as the 0-based month argument, i.e. the day-0-of-next-month trick, evaluated
in a timezone with offset `o`. -/
def daysInMonth (o : Int) (year month : Nat) : Nat :=
  jsGetDate o (jsNewDateLocal o year (month : Int) 0)

/-- The `firstDayOfMonth` computation of `calendarCells`:
`new Date(year, month - 1, 1).getDay()`. -/
def firstDayOfMonth (o : Int) (year month : Nat) : Nat :=
  jsGetDay o (jsNewDateLocal o year ((month : Int) - 1) 1)

/-- Source `calendarCells`: leading blank cells up to the first weekday, then one
day cell per day of the month, each carrying its `YYYY-MM-DD` string and
workout-set membership. -/
def calendarCells (o : Int) (year month : Nat)
    (workoutDates : List (List Char)) : List CalCell :=
  (List.range (firstDayOfMonth o year month)).map CalCell.blank ++
    (List.range (daysInMonth o year month)).map (fun i =>
      let dateStr := dateStrCal year month (i + 1)
      CalCell.day (i + 1) dateStr (workoutDates.contains dateStr))

example : daysInMonth 123 2025 2 = 28 := by decide
example : daysInMonth (-555) 2024 2 = 29 := by decide
example : daysInMonth 0 2025 12 = 31 := by decide
example : firstDayOfMonth 0 2025 6 = 0 := by decide

/-! ### Claim-side coercion policy (for the refinement claims C1/C8) -/

/-- The claim's wording for `sets` / `reps` / `minutes`: parse as integer,
floor to a minimum of 1 whenever parsing fails or the value is below 1. -/
def claimIntMin1 (s : List Char) : Int :=
  match jsParseInt s with
  | none => 1
  | some v => if v < 1 then 1 else v

/-- The claim's wording for `weight`: parse as decimal, default to 0 when
unparseable. -/
def claimWeight (s : List Char) : Rat :=
  match jsParseFloat s with
  | none => 0
  | some q => q

/-- C1.  Every strength entry of a save payload carries sets and reps parsed
as integers and floored to a minimum of 1 when parsing fails or the value is
below 1, every cardio entry carries minutes coerced the same way, and weight
is the parsed decimal, defaulting to 0 when unparseable; payload entries are
exactly coercions of form entries. -/
theorem save_numeric_coercion :
    (∀ e : FormStrength, (mkStrengthPayload e).sets = claimIntMin1 e.sets
      ∧ (mkStrengthPayload e).reps = claimIntMin1 e.reps
      ∧ (mkStrengthPayload e).weight = claimWeight e.weight)
    ∧ (∀ c : FormCardio, (mkCardioPayload c).minutes = claimIntMin1 c.minutes)
    ∧ (∀ date notes es cs, ∀ p ∈ (saveWorkoutPayload date notes es cs).entries,
        ∃ e ∈ es, p = mkStrengthPayload e)
    ∧ (∀ date notes es cs, ∀ p ∈ (saveWorkoutPayload date notes es cs).cardio_entries,
        ∃ c ∈ cs, p = mkCardioPayload c) := by
  refine ⟨fun e => ⟨?_, ?_, ?_⟩, fun c => ?_, ?_, ?_⟩
  · cases h : jsParseInt e.sets <;>
      simp [mkStrengthPayload, jsOrZ, claimIntMin1, h] <;> omega
  · cases h : jsParseInt e.reps <;>
      simp [mkStrengthPayload, jsOrZ, claimIntMin1, h] <;> omega
  · cases h : jsParseFloat e.weight <;>
      simp only [mkStrengthPayload, jsOrQ, claimWeight, h] <;> split_ifs <;> simp_all
  · cases h : jsParseInt c.minutes <;>
      simp [mkCardioPayload, jsOrZ, claimIntMin1, h] <;> omega
  · intro date notes es cs p hp
    simp only [saveWorkoutPayload, List.mem_map, List.mem_filter] at hp
    obtain ⟨e, ⟨he, _⟩, rfl⟩ := hp
    exact ⟨e, he, rfl⟩
  · intro date notes es cs p hp
    simp only [saveWorkoutPayload, List.mem_map, List.mem_filter] at hp
    obtain ⟨c, ⟨hc, _⟩, rfl⟩ := hp
    exact ⟨c, hc, rfl⟩

/-- A concrete form entry with a sub-1 sets string and unparseable reps and
weight strings, used by witnesses. -/
def sampleEntryZero : FormStrength :=
  { exercise_id := some 1, sets := chs "0", reps := chs "abc", weight := chs "x" }

/-- Witness for C1 at a concrete form entry with failing and sub-1 inputs. -/
theorem save_numeric_coercion_witness :
    (mkStrengthPayload sampleEntryZero).sets = claimIntMin1 (chs "0")
    ∧ (∃ e ∈ [sampleEntryZero],
        mkStrengthPayload sampleEntryZero = mkStrengthPayload e) :=
  ⟨(save_numeric_coercion.1 sampleEntryZero).1,
    save_numeric_coercion.2.2.1 (chs "2025-06-01") [] [sampleEntryZero] []
      (mkStrengthPayload sampleEntryZero)
      (by simp [saveWorkoutPayload, sampleEntryZero])⟩

/-- C2.  Strength entries with a null exercise reference and cardio entries
with a null cardio-type reference are dropped from the payload before the
write: every payload entry has a non-null reference and exactly the
non-null-reference form entries survive, in order, with no error raised. -/
theorem save_drops_null_refs (date notes : List Char)
    (es : List FormStrength) (cs : List FormCardio) :
    (∀ p ∈ (saveWorkoutPayload date notes es cs).entries, p.exercise_id ≠ none)
    ∧ (∀ p ∈ (saveWorkoutPayload date notes es cs).cardio_entries,
        p.cardio_type_id ≠ none)
    ∧ (saveWorkoutPayload date notes es cs).entries.length
        = es.countP (fun e => e.exercise_id.isSome)
    ∧ (saveWorkoutPayload date notes es cs).cardio_entries.length
        = cs.countP (fun c => c.cardio_type_id.isSome)
    ∧ (saveWorkoutPayload date notes es cs).entries
        = (es.filter (fun e => e.exercise_id.isSome)).map mkStrengthPayload := by
  refine ⟨?_, ?_, ?_, ?_, rfl⟩
  · intro p hp
    simp only [saveWorkoutPayload, List.mem_map, List.mem_filter] at hp
    obtain ⟨e, ⟨_, he⟩, rfl⟩ := hp
    simp only [mkStrengthPayload]
    exact Option.isSome_iff_ne_none.mp he
  · intro p hp
    simp only [saveWorkoutPayload, List.mem_map, List.mem_filter] at hp
    obtain ⟨c, ⟨_, hc⟩, rfl⟩ := hp
    simp only [mkCardioPayload]
    exact Option.isSome_iff_ne_none.mp hc
  · simp [saveWorkoutPayload, List.countP_eq_length_filter]
  · simp [saveWorkoutPayload, List.countP_eq_length_filter]

/-- A two-entry strength list whose second entry has a null reference. -/
def sampleMixedEntries : List FormStrength :=
  [{ exercise_id := some 3, sets := chs "3", reps := chs "10", weight := chs "5" },
   { exercise_id := none, sets := chs "1", reps := chs "1", weight := chs "0" }]

/-- Witness for C2 on a mixed list where the second entry has a null
reference. -/
theorem save_drops_null_refs_witness :
    (∀ p ∈ (saveWorkoutPayload (chs "2025-06-01") [] sampleMixedEntries []).entries,
      p.exercise_id ≠ none)
    ∧ (saveWorkoutPayload (chs "2025-06-01") [] sampleMixedEntries []).entries.length = 1 := by
  have h := save_drops_null_refs (chs "2025-06-01") [] sampleMixedEntries []
  refine ⟨h.1, ?_⟩
  rw [h.2.2.1]
  decide

/-! ### C8: payload weight sign -/

theorem jsParseFloat_neg5 : jsParseFloat (chs "-5") = some (-5) := by
  simp +decide [jsParseFloat, chs, takeDigits, digitsVal, stripSign, Rat.mkRat_eq_div]
  try norm_num

theorem jsParseFloat_75 : jsParseFloat (chs "7.5") = some (15 / 2) := by
  simp +decide [jsParseFloat, chs, takeDigits, digitsVal, stripSign, Rat.mkRat_eq_div]
  try norm_num

/-- A concrete form entry whose weight input is the string -5. -/
def sampleEntryNegWeight : FormStrength :=
  { exercise_id := some 1, sets := chs "3", reps := chs "10", weight := chs "-5" }

/-- Counterexample to C8: a form weight input of -5 is passed through to the
payload as the negative decimal -5, so a payload strength entry can carry a
negative weight. -/
theorem payload_weight_negative :
    (saveWorkoutPayload (chs "2025-06-01") [] [sampleEntryNegWeight] []).entries
      = [mkStrengthPayload sampleEntryNegWeight]
    ∧ (mkStrengthPayload sampleEntryNegWeight).weight = -5
    ∧ (mkStrengthPayload sampleEntryNegWeight).weight < 0 := by
  have hw : (mkStrengthPayload sampleEntryNegWeight).weight = -5 := by
    simp only [mkStrengthPayload, sampleEntryNegWeight, jsParseFloat_neg5, jsOrQ]
    norm_num
  refine ⟨by simp [saveWorkoutPayload, sampleEntryNegWeight], hw, ?_⟩
  rw [hw]
  norm_num

/-- C8 amended.  A payload strength entry's weight is non-negative whenever
the form's weight string does not parse to a negative decimal (in particular
whenever it is unparseable, which defaults to 0); a negative parsed input is
passed through unclamped. -/
theorem payload_weight_nonneg (e : FormStrength)
    (h : ∀ q, jsParseFloat e.weight = some q → 0 ≤ q) :
    0 ≤ (mkStrengthPayload e).weight := by
  simp only [mkStrengthPayload]
  cases hp : jsParseFloat e.weight with
  | none => simp [jsOrQ]
  | some q =>
    simp only [jsOrQ, hp]
    split_ifs
    · norm_num
    · exact h q hp

/-- A concrete form entry with weight input 7.5. -/
def sampleEntry75 : FormStrength :=
  { exercise_id := some 1, sets := chs "3", reps := chs "10", weight := chs "7.5" }

/-- Witness for the amended C8 at the parsing weight input 7.5. -/
theorem payload_weight_nonneg_witness :
    0 ≤ (mkStrengthPayload sampleEntry75).weight :=
  payload_weight_nonneg sampleEntry75 (fun q hq => by
    rw [show sampleEntry75.weight = chs "7.5" from rfl, jsParseFloat_75] at hq
    injection hq with hq
    rw [← hq]
    norm_num)

/-! ### C9: delete handlers -/

theorem jsFilterIdxNeGo_eq {α : Type} (l : List α) :
    ∀ idx cur, jsFilterIdxNeGo idx cur l
      = if idx < cur then l else l.eraseIdx (idx - cur) := by
  induction l with
  | nil =>
    intro idx cur
    simp [jsFilterIdxNeGo]
  | cons a as ih =>
    intro idx cur
    simp only [jsFilterIdxNeGo, ih]
    rcases Nat.lt_trichotomy idx cur with hlt | heq | hgt
    · rw [if_pos (by omega), if_pos (by omega), if_pos hlt]
    · rw [if_neg (by omega), if_pos (by omega), if_neg (by omega)]
      have h0 : idx - cur = 0 := by omega
      rw [h0, List.eraseIdx_cons_zero]
    · rw [if_pos (by omega), if_neg (by omega), if_neg (by omega)]
      have hk : idx - cur = (idx - (cur + 1)) + 1 := by omega
      rw [hk, List.eraseIdx_cons_succ]

theorem jsFilterIdxNe_eraseIdx {α : Type} (l : List α) (idx : Nat) :
    jsFilterIdxNe l idx = l.eraseIdx idx := by
  rw [jsFilterIdxNe, jsFilterIdxNeGo_eq, if_neg (by omega), Nat.sub_zero]

/-- C9.  A confirmed delete followed by a failed save leaves the entry lists
in their exact pre-delete state; a successful save removes exactly the entry
at the deleted index and touches nothing else. -/
theorem delete_entry_rollback (st : DayState) (index : Nat) :
    handleDeleteStrength st index true false = st
    ∧ handleDeleteCardio st index true false = st
    ∧ (handleDeleteStrength st index true true).entries = st.entries.eraseIdx index
    ∧ (handleDeleteStrength st index true true).cardioEntries = st.cardioEntries
    ∧ (handleDeleteCardio st index true true).cardioEntries
        = st.cardioEntries.eraseIdx index
    ∧ (handleDeleteCardio st index true true).entries = st.entries := by
  refine ⟨rfl, rfl, ?_, rfl, ?_, rfl⟩
  · show jsFilterIdxNe st.entries index = _
    exact jsFilterIdxNe_eraseIdx st.entries index
  · show jsFilterIdxNe st.cardioEntries index = _
    exact jsFilterIdxNe_eraseIdx st.cardioEntries index

/-! ### C6: day totals -/

theorem foldl_add_map_sum {M : Type} [AddCommMonoid M] {α : Type} (f : α → M) :
    ∀ (l : List α) (a : M), l.foldl (fun s e => s + f e) a = a + (l.map f).sum := by
  intro l
  induction l with
  | nil => intro a; simp
  | cons x xs ih =>
    intro a
    simp [ih, add_assoc]

theorem jsParseFloat_1355 : jsParseFloat (chs "135.5") = some (271 / 2) := by
  simp +decide [jsParseFloat, chs, takeDigits, digitsVal, stripSign, Rat.mkRat_eq_div]
  try norm_num

/-- The spec's worked example entry: 3 sets of 10 reps at weight 135.5. -/
def sampleEntry1355 : FormStrength :=
  { exercise_id := some 1, sets := chs "3", reps := chs "10", weight := chs "135.5" }

/-- C6.  The displayed day totals are the sums, over the entry lists, of
sets times reps times weight, of sets times reps, and of minutes, each field
read with the screen's parse-or-0 coercion; on the spec's worked example the
weight total is exactly 4065. -/
theorem day_totals_formula :
    (∀ entries : List FormStrength, localTotalWeight entries
        = (entries.map (fun e => ((jsOrZ (jsParseInt e.sets) 0 : Int) : Rat)
            * ((jsOrZ (jsParseInt e.reps) 0 : Int) : Rat)
            * jsOrQ (jsParseFloat e.weight) 0)).sum)
    ∧ (∀ entries : List FormStrength, localTotalReps entries
        = (entries.map (fun e =>
            jsOrZ (jsParseInt e.sets) 0 * jsOrZ (jsParseInt e.reps) 0)).sum)
    ∧ (∀ cardioEntries : List FormCardio, localTotalCardioMinutes cardioEntries
        = (cardioEntries.map (fun c => jsOrZ (jsParseInt c.minutes) 0)).sum)
    ∧ localTotalWeight [sampleEntry1355] = 4065
    ∧ localTotalReps [sampleEntry1355] = 30 := by
  have h3 : jsParseInt (chs "3") = some 3 := by decide
  have h10 : jsParseInt (chs "10") = some 10 := by decide
  refine ⟨?_, ?_, ?_, ?_, ?_⟩
  · intro entries
    rw [localTotalWeight, foldl_add_map_sum]
    simp
  · intro entries
    rw [localTotalReps, foldl_add_map_sum]
    simp
  · intro cardioEntries
    rw [localTotalCardioMinutes, foldl_add_map_sum]
    simp
  · simp only [localTotalWeight, List.foldl_cons, List.foldl_nil, sampleEntry1355,
      h3, h10, jsParseFloat_1355, jsOrZ, jsOrQ]
    norm_num
  · simp only [localTotalReps, List.foldl_cons, List.foldl_nil, sampleEntry1355,
      h3, h10, jsOrZ]
    norm_num

/-! ### C4: exercise-history cache entries under a day save -/

/-- Counterexample to C4: the save mutation for 2025-06-01 invalidates the
cached history of exercise 1, because the save emits the general Analytics
tag and the history entry provides an Analytics-typed tag. -/
theorem exercise_history_invalidated_cex :
    invalidatedBy (getExerciseHistoryProvides 1)
      (saveDayWorkoutInvalidates (chs "2025-06-01")) := by
  refine ⟨⟨.Analytics, none⟩, ?_,
    ⟨.Analytics, some (chs "exercise-" ++ natDigits 1)⟩, ?_, ?_⟩
  · simp [saveDayWorkoutInvalidates]
  · simp [getExerciseHistoryProvides]
  · simp [tagMatches]

/-- C4 amended.  Every per-exercise history cache entry is invalidated by
every day-workout save: the save's unconditional general Analytics tag
matches the Analytics-typed tag the history query provides. -/
theorem exercise_history_invalidated (exerciseId : Nat) (date : List Char) :
    invalidatedBy (getExerciseHistoryProvides exerciseId)
      (saveDayWorkoutInvalidates date) := by
  refine ⟨⟨.Analytics, none⟩, ?_,
    ⟨.Analytics, some (chs "exercise-" ++ natDigits exerciseId)⟩, ?_, ?_⟩
  · simp [saveDayWorkoutInvalidates]
  · simp [getExerciseHistoryProvides]
  · simp [tagMatches]

/-! ### C3: the exact invalidated tag set of a save -/

theorem natDigits_no_dash (n : Nat) : ∀ c ∈ natDigits n, c ≠ '-' :=
  fun c hc => isDigit_ne_dash c (natDigits_all_digits n c hc)

theorem pad2_no_dash (n : Nat) : ∀ c ∈ pad2 n, c ≠ '-' :=
  fun c hc => isDigit_ne_dash c (pad2_all_digits n c hc)

theorem pad4_no_dash (n : Nat) : ∀ c ∈ pad4 n, c ≠ '-' :=
  fun c hc => isDigit_ne_dash c (pad4_all_digits n c hc)

theorem splitOnDash_dateStrCal (y m d : Nat) :
    splitOnDash (dateStrCal y m d) = [natDigits y, pad2 m, pad2 d] := by
  rw [dateStrCal]
  simp only [List.append_assoc, List.cons_append]
  rw [splitOnDash_append _ _ (natDigits_no_dash y),
    splitOnDash_append _ _ (pad2_no_dash m), splitOnDash_no_dash _ (pad2_no_dash d)]

theorem splitOnDash_dateStr4 (y m d : Nat) :
    splitOnDash (dateStr4 y m d) = [pad4 y, pad2 m, pad2 d] := by
  rw [dateStr4]
  simp only [List.append_assoc, List.cons_append]
  rw [splitOnDash_append _ _ (pad4_no_dash y),
    splitOnDash_append _ _ (pad2_no_dash m), splitOnDash_no_dash _ (pad2_no_dash d)]

/-- C3.  The save mutation for the date string of (year, month, day)
invalidates exactly the day-workout tag of that exact date string, the
MonthWorkouts tag of the (year, month) pair read back by splitting the
string on dashes, and the general Analytics tag; the month tag is the one
the month query provides and the day tag is the one the day query provides. -/
theorem save_invalidates_tags (y m d : Nat) :
    saveDayWorkoutInvalidates (dateStrCal y m d)
      = [⟨.Workout, some (dateStrCal y m d)⟩,
         ⟨.MonthWorkouts, some (natDigits y ++ '-' :: natDigits m)⟩,
         ⟨.Analytics, none⟩]
    ∧ (⟨.MonthWorkouts, some (natDigits y ++ '-' :: natDigits m)⟩ : CacheTag)
        ∈ getMonthWorkoutsProvides y m
    ∧ (⟨.Workout, some (dateStrCal y m d)⟩ : CacheTag)
        ∈ getDayWorkoutProvides (dateStrCal y m d) := by
  refine ⟨?_, by simp [getMonthWorkoutsProvides], by simp [getDayWorkoutProvides]⟩
  simp only [saveDayWorkoutInvalidates, splitOnDash_dateStrCal, List.map_cons,
    List.map_nil, jsNumber_natDigits, jsNumber_pad2, List.getD_cons_zero,
    List.getD_cons_succ, jsRender]

/-! ### C5/C7 machinery: offset cancellation and month lengths -/

theorem jsLocal_cancel (o : Int) (y : Nat) (m0 d : Int) :
    (jsNewDateLocal o y m0 d + o).fdiv 1440 = jsMakeDay y m0 d := by
  rw [jsNewDateLocal]
  have h : jsMakeDay y m0 d * 1440 - o + o = jsMakeDay y m0 d * 1440 := by ring
  rw [h, Int.mul_fdiv_cancel _ (by norm_num : (1440 : Int) ≠ 0)]

theorem daysFromCivil_day (y m d : Nat) (_hd : 1 ≤ d) :
    daysFromCivil y m d = daysFromCivil y m 1 + (d - 1) := by
  simp only [daysFromCivil]
  by_cases h2 : m ≤ 2
  · rw [if_pos h2, if_neg (by omega : ¬ 3 ≤ m)]
    omega
  · rw [if_neg h2, if_pos (by omega : 3 ≤ m)]
    omega

theorem jsMakeDay_m1 (y : Nat) (m : Nat) (d : Int) (hm1 : 1 ≤ m) (hm2 : m ≤ 12) :
    jsMakeDay y ((m : Int) - 1) d = (daysFromCivil (jsFullYear y) m 1 : Int) + d - 1 := by
  rw [jsMakeDay]
  have hf : ((m : Int) - 1).fdiv 12 = 0 := by
    interval_cases m <;> decide
  have he : (((m : Int) - 1).emod 12).toNat = m - 1 := by
    interval_cases m <;> decide
  rw [hf, he]
  have ht : ((jsFullYear y : Int) + 0).toNat = jsFullYear y := by omega
  rw [ht]
  have hm : m - 1 + 1 = m := by omega
  rw [hm]

theorem jsLocalYMD_newDate (o : Int) (y m d : Nat) (h100 : 100 ≤ y)
    (hm1 : 1 ≤ m) (hm2 : m ≤ 12) (hd1 : 1 ≤ d) (hd2 : d ≤ gregDaysInMonth y m) :
    jsLocalYMD o (jsNewDateLocal o y ((m : Int) - 1) (d : Int)) = (y, m, d) := by
  rw [jsLocalYMD, jsLocal_cancel, jsMakeDay_m1 y m d hm1 hm2]
  have hjf : jsFullYear y = y := by
    rw [jsFullYear, if_neg (by omega)]
  rw [hjf]
  have htn : ((daysFromCivil y m 1 : Int) + d - 1).toNat = daysFromCivil y m d := by
    rw [daysFromCivil_day y m d hd1]
    omega
  rw [htn]
  exact civilFromDays_daysFromCivil y m d (by omega) hm1 hm2 hd1 hd2

set_option maxHeartbeats 1000000 in
/-- First day of the next month is the last day of this month plus one. -/
theorem daysFromCivil_next (Y m : Nat) (hY : 1 ≤ Y) (hm1 : 1 ≤ m) (hm2 : m ≤ 12) :
    (if m = 12 then daysFromCivil (Y + 1) 1 1 else daysFromCivil Y (m + 1) 1)
      = daysFromCivil Y m (gregDaysInMonth Y m) + 1 := by
  interval_cases m <;>
    simp only [daysFromCivil, gregDaysInMonth, isLeap] <;>
    norm_num <;>
    first
      | omega
      | (split_ifs <;> omega)

theorem gregDaysInMonth_jsFullYear (y m : Nat) (hy : 1 ≤ y) :
    gregDaysInMonth (jsFullYear y) m = gregDaysInMonth y m := by
  rw [jsFullYear]
  split_ifs with h99
  · rw [gregDaysInMonth, gregDaysInMonth]
    by_cases hm : m = 2
    · rw [if_pos hm, if_pos hm]
      have hiff : isLeap (1900 + y) ↔ isLeap y := by
        unfold isLeap
        omega
      by_cases hL : isLeap y
      · rw [if_pos (hiff.mpr hL), if_pos hL]
      · rw [if_neg (fun hh => hL (hiff.mp hh)), if_neg hL]
    · rw [if_neg hm, if_neg hm]
  · rfl

theorem gregDaysInMonth_le (y m : Nat) :
    1 ≤ gregDaysInMonth y m ∧ gregDaysInMonth y m ≤ 31 := by
  rw [gregDaysInMonth]
  split_ifs <;> omega

/-- The day-0-of-next-month trick computes the Gregorian month length of
the (two-digit-rule-mapped) constructor year, in every timezone offset. -/
theorem daysInMonth_eq_greg (o : Int) (y m : Nat) (hy : 1 ≤ y)
    (hm1 : 1 ≤ m) (hm2 : m ≤ 12) :
    daysInMonth o y m = gregDaysInMonth y m := by
  rw [daysInMonth, jsGetDate, jsLocalYMD, jsLocal_cancel]
  have hY1 : 1 ≤ jsFullYear y := by
    rw [jsFullYear]
    split_ifs <;> omega
  have hnext := daysFromCivil_next (jsFullYear y) m hY1 hm1 hm2
  have hstep : jsMakeDay y (m : Int) 0
      = (daysFromCivil (jsFullYear y) m (gregDaysInMonth (jsFullYear y) m) : Int) := by
    rw [jsMakeDay]
    by_cases h12 : m = 12
    · subst h12
      have hf : ((12 : Nat) : Int).fdiv 12 = 1 := by decide
      have he : (((12 : Nat) : Int).emod 12).toNat = 0 := by decide
      rw [hf, he]
      rw [if_pos rfl] at hnext
      have ht : ((jsFullYear y : Int) + 1).toNat = jsFullYear y + 1 := by omega
      rw [ht, hnext]
      push_cast
      ring
    · have hm11 : m ≤ 11 := by omega
      have hf : ((m : Nat) : Int).fdiv 12 = 0 := by
        interval_cases m <;> decide
      have he : (((m : Nat) : Int).emod 12).toNat = m := by
        interval_cases m <;> decide
      rw [hf, he]
      rw [if_neg h12] at hnext
      have ht : ((jsFullYear y : Int) + 0).toNat = jsFullYear y := by omega
      rw [ht, hnext]
      push_cast
      ring
  rw [hstep]
  have ht2 : ((daysFromCivil (jsFullYear y) m (gregDaysInMonth (jsFullYear y) m) : Nat)
      : Int).toNat = daysFromCivil (jsFullYear y) m (gregDaysInMonth (jsFullYear y) m) := by
    omega
  rw [ht2, civilFromDays_daysFromCivil (jsFullYear y) m _ hY1 hm1 hm2
    (gregDaysInMonth_le (jsFullYear y) m).1 le_rfl]
  exact gregDaysInMonth_jsFullYear y m hy

/-! ### C5: component-wise local-date parsing -/

theorem dateStr4_ne_nil (y m d : Nat) : dateStr4 y m d ≠ [] := by
  rw [dateStr4]
  simp

/-- C5 amended.  For every timezone offset and every valid `YYYY-MM-DD` date
string whose year component is at least 100, `parseLocalDate` builds the
local date from the split components and its local year, month and day read
back exactly as the string's numeric components — the date is never shifted
by the offset. -/
theorem parseLocalDate_components (o : Int) (y m d : Nat)
    (h100 : 100 ≤ y) (h4 : y ≤ 9999) (hm1 : 1 ≤ m) (hm2 : m ≤ 12)
    (hd1 : 1 ≤ d) (hd2 : d ≤ gregDaysInMonth y m) :
    parseLocalDate o (dateStr4 y m d)
        = some (jsNewDateLocal o y ((m : Int) - 1) (d : Int))
    ∧ jsLocalYMD o (jsNewDateLocal o y ((m : Int) - 1) (d : Int)) = (y, m, d) := by
  constructor
  · simp only [parseLocalDate, if_neg (dateStr4_ne_nil y m d), splitOnDash_dateStr4,
      List.map_cons, List.map_nil, jsNumber_pad4, jsNumber_pad2]
  · exact jsLocalYMD_newDate o y m d h100 hm1 hm2 hd1 hd2

/-- Witness for the amended C5: parsing 2025-01-31 in a timezone 480 minutes
west of UTC yields local components (2025, 1, 31). -/
theorem parseLocalDate_components_witness :
    parseLocalDate (-480) (dateStr4 2025 1 31)
        = some (jsNewDateLocal (-480) 2025 ((1 : Int) - 1) (31 : Int))
    ∧ jsLocalYMD (-480) (jsNewDateLocal (-480) 2025 ((1 : Int) - 1) (31 : Int))
        = (2025, 1, 31) := by
  have h := parseLocalDate_components (-480) 2025 1 31 (by norm_num) (by norm_num)
    (by norm_num) (by norm_num) (by norm_num) (by decide)
  exact_mod_cast h

/-- Counterexample to C5 as stated: the valid date string 0099-01-15 parses
to local components (1999, 1, 15), not (99, 1, 15), because the `Date`
constructor maps year arguments up to 99 to 1900 + year. -/
theorem parseLocalDate_year99_cex :
    dateStr4 99 1 15 = chs "0099-01-15"
    ∧ parseLocalDate 0 (chs "0099-01-15") = some (jsNewDateLocal 0 99 0 15)
    ∧ jsLocalYMD 0 (jsNewDateLocal 0 99 0 15) = (1999, 1, 15)
    ∧ jsLocalYMD 0 (jsNewDateLocal 0 99 0 15) ≠ (99, 1, 15) := by
  refine ⟨by decide, by decide, by decide, by decide⟩

/-! ### C7: calendar month length and grid shape -/

/-- Counterexample to C7 as stated over every year: at year 0 the day-0 trick
computes the length of February 1900 (28 days), while the true Gregorian
February of year 0 has 29 days. -/
theorem daysInMonth_year0_cex :
    daysInMonth 0 0 2 = 28
    ∧ gregDaysInMonth 0 2 = 29
    ∧ daysInMonth 0 0 2 ≠ gregDaysInMonth 0 2 := by
  refine ⟨by decide, by decide, by decide⟩

/-- C7 amended.  For every year from 1 on, every month 1-12 and every
timezone offset, the day-0-of-next-month trick equals the true Gregorian
month length (February 29 in leap years included), and the calendar grid is
leading blanks followed by exactly that many day cells. -/
theorem calendar_month_length (o : Int) (y m : Nat) (ws : List (List Char))
    (hy : 1 ≤ y) (hm1 : 1 ≤ m) (hm2 : m ≤ 12) :
    daysInMonth o y m = gregDaysInMonth y m
    ∧ ((calendarCells o y m ws).filter CalCell.isDay).length = gregDaysInMonth y m
    ∧ (∀ c ∈ (calendarCells o y m ws).take (firstDayOfMonth o y m), c.isDay = false)
    ∧ (∀ c ∈ (calendarCells o y m ws).drop (firstDayOfMonth o y m), c.isDay = true) := by
  have hdim := daysInMonth_eq_greg o y m hy hm1 hm2
  have hlen : ((List.range (firstDayOfMonth o y m)).map CalCell.blank).length
      = firstDayOfMonth o y m := by
    simp
  refine ⟨hdim, ?_, ?_, ?_⟩
  · rw [calendarCells, List.filter_append]
    have h1 : ((List.range (firstDayOfMonth o y m)).map CalCell.blank).filter
        CalCell.isDay = [] := by
      rw [List.filter_eq_nil_iff]
      intro c hc
      obtain ⟨i, _, rfl⟩ := List.mem_map.mp hc
      simp [CalCell.isDay]
    have h2 : ∀ l : List (List Char), ((List.range (daysInMonth o y m)).map (fun i =>
        CalCell.day (i + 1) (dateStrCal y m (i + 1))
          (l.contains (dateStrCal y m (i + 1))))).filter CalCell.isDay
        = (List.range (daysInMonth o y m)).map (fun i =>
            CalCell.day (i + 1) (dateStrCal y m (i + 1))
              (l.contains (dateStrCal y m (i + 1)))) := by
      intro l
      rw [List.filter_eq_self]
      intro c hc
      obtain ⟨i, _, rfl⟩ := List.mem_map.mp hc
      simp [CalCell.isDay]
    rw [h1, h2]
    simp [hdim]
  · intro c hc
    rw [calendarCells, List.take_left' hlen] at hc
    obtain ⟨i, _, rfl⟩ := List.mem_map.mp hc
    simp [CalCell.isDay]
  · intro c hc
    rw [calendarCells, List.drop_left' hlen] at hc
    obtain ⟨i, _, rfl⟩ := List.mem_map.mp hc
    simp [CalCell.isDay]

/-- Witness for the amended C7: February 2025 has 28 cells' worth of days. -/
theorem calendar_month_length_witness :
    daysInMonth 0 2025 2 = gregDaysInMonth 2025 2 :=
  (calendar_month_length 0 2025 2 [] (by norm_num) (by norm_num) (by norm_num)).1

/-! ### C10: the calendar's date strings -/

/-- C10.  Every date string a calendar day cell carries is zero-padded
`YYYY-MM-DD` with two-digit month and day, splitting on dashes recovers the
three components, `Number` of the components gives back the numeric year,
month and day, and the cell for that string is in the grid. -/
theorem calendar_date_strings (o : Int) (y m d : Nat) (ws : List (List Char))
    (hy : y ∈ VALID_YEARS) (hm1 : 1 ≤ m) (hm2 : m ≤ 12)
    (hd1 : 1 ≤ d) (hd2 : d ≤ daysInMonth o y m) :
    (pad2 m).length = 2
    ∧ (pad2 d).length = 2
    ∧ splitOnDash (dateStrCal y m d) = [natDigits y, pad2 m, pad2 d]
    ∧ (splitOnDash (dateStrCal y m d)).map jsNumber = [some y, some m, some d]
    ∧ CalCell.day d (dateStrCal y m d) (ws.contains (dateStrCal y m d))
        ∈ calendarCells o y m ws := by
  have hy1 : 1 ≤ y := by
    simp only [VALID_YEARS, List.mem_cons, List.not_mem_nil, or_false] at hy
    omega
  have hd31 : d ≤ 31 := by
    have hg := daysInMonth_eq_greg o y m hy1 hm1 hm2
    have hle := gregDaysInMonth_le y m
    omega
  refine ⟨pad2_length m (by omega), pad2_length d (by omega),
    splitOnDash_dateStrCal y m d, ?_, ?_⟩
  · rw [splitOnDash_dateStrCal]
    simp [jsNumber_natDigits, jsNumber_pad2]
  · rw [calendarCells]
    refine List.mem_append_right _ ?_
    rw [List.mem_map]
    refine ⟨d - 1, ?_, ?_⟩
    · rw [List.mem_range]
      omega
    · have hsub : d - 1 + 1 = d := by omega
      simp only [hsub]

/-- Witness for C10 at March 7, 2025. -/
theorem calendar_date_strings_witness :
    (pad2 3).length = 2
    ∧ splitOnDash (dateStrCal 2025 3 7) = [natDigits 2025, pad2 3, pad2 7] := by
  have h := calendar_date_strings 0 2025 3 7 [] (by decide) (by norm_num)
    (by norm_num) (by norm_num) (by decide)
  exact ⟨h.1, h.2.2.1⟩
